import Mathlib

/-!
# Verification of the federated search server (`src/server.js`)

A shallow embedding of the federation-mode server: the report/company data
model, the filter compiler (`reportMust`, `companyMust`), the two-stage
query federator of the `POST /search` handler, the result assembler, and
the `POST /insertSampleData` bulk seeder.  The external Elasticsearch
engine is modelled as in-memory document lists per index, with `term`,
`match`, `terms` and `match_all` query semantics; engine failures are
modelled by per-index failure injection on the backend state.
-/

namespace ElasticSrv

/-- A document of the `company` index (`id` keyword, `name` text with
`name.keyword` sub-field). -/
structure Company where
  id : String
  name : String
deriving Repr, DecidableEq

/-- A document of the `reports` index (`server.js` mapping: `id`, `name`,
`company_id`, `tags`, `status`). -/
structure Report where
  id : String
  name : String
  company_id : String
  tags : List String
  status : String
deriving Repr, DecidableEq

/-- The JSON value found at `reportFilters.tags`: the request body is
loosely typed, so this field may hold an array of strings or any other
JSON value (the other filter fields are modelled as optional strings). -/
inductive JTags where
  | absent
  | null
  | arr (xs : List String)
  | str (s : String)
  | num (n : Int)
  | boolean (b : Bool)
deriving Repr, DecidableEq

/-- JavaScript truthiness of the `tags` value itself
(`reportFilters.tags && ...`): `undefined`, `null`, `0`, `""`, `false`
are falsy; arrays are always truthy. -/
def JTags.truthy : JTags → Bool
  | .absent => false
  | .null => false
  | .arr _ => true
  | .str s => s ≠ ""
  | .num n => n ≠ 0
  | .boolean b => b

/-- JavaScript truthiness of `tags.length`: arrays and strings have a
numeric `length` (truthy iff nonzero); on numbers and booleans `.length`
is `undefined`, hence falsy. -/
def JTags.lengthTruthy : JTags → Bool
  | .arr xs => xs.length ≠ 0
  | .str s => s.length ≠ 0
  | _ => false

/-- Truthiness of an optional string field (`if (filters.x)`):
absent and the empty string are falsy. -/
def strTruthy : Option String → Bool
  | some s => s ≠ ""
  | none => false

/-- The `reportFilters` object of the `/search` body (all keys optional). -/
structure ReportFilters where
  id : Option String := none
  name : Option String := none
  tags : JTags := .absent
  status : Option String := none
deriving Repr, DecidableEq

/-- The `companyFilters` object of the `/search` body. -/
structure CompanyFilters where
  id : Option String := none
  name : Option String := none
deriving Repr, DecidableEq

/-- A clause pushed onto `reportMust` (`server.js` lines 139-151).  The
`terms` clause carries the raw `tags` value, as the code forwards it
unvalidated. -/
inductive RClause where
  | termId (v : String)
  | matchName (v : String)
  | termsTags (v : JTags)
  | termStatus (v : String)
deriving Repr, DecidableEq

/-- A clause pushed onto `companyMust` (`server.js` lines 170-179). -/
inductive CClause where
  | termId (v : String)
  | matchName (v : String)
  | termsIds (vs : List String)
deriving Repr, DecidableEq

/-- Analyzer model for `text` fields: whitespace tokenization. -/
def tokens (s : String) : List String :=
  (s.splitOn " ").filter (fun t => t ≠ "")

/-- Semantics of a `match` query on an analyzed text field: some token of the
query occurs among the tokens of the field (default OR operator). -/
def matchText (q field : String) : Bool :=
  (tokens q).any (fun t => (tokens field).contains t)

/-- A `terms` query is well-formed only when its value is an array;
Elasticsearch rejects the whole search request otherwise. -/
def RClause.wf : RClause → Bool
  | .termsTags (.arr _) => true
  | .termsTags _ => false
  | _ => true

/-- Evaluation of a report clause against a report document. -/
def RClause.eval : RClause → Report → Bool
  | .termId v, r => r.id == v
  | .matchName v, r => matchText v r.name
  | .termsTags (.arr vs), r => r.tags.any (fun t => vs.contains t)
  | .termsTags _, _ => false
  | .termStatus v, r => r.status == v

/-- Evaluation of a company clause against a company document. -/
def CClause.eval : CClause → Company → Bool
  | .termId v, c => c.id == v
  | .matchName v, c => matchText v c.name
  | .termsIds vs, c => vs.contains c.id

/-- The `reportMust` clause list (`server.js` lines 139-151): each truthy
filter field pushes one clause, in source order. -/
def reportMust (f : ReportFilters) : List RClause :=
  (if strTruthy f.id then [RClause.termId (f.id.getD "")] else []) ++
  (if strTruthy f.name then [RClause.matchName (f.name.getD "")] else []) ++
  (if f.tags.truthy && f.tags.lengthTruthy then [RClause.termsTags f.tags] else []) ++
  (if strTruthy f.status then [RClause.termStatus (f.status.getD "")] else [])

/-- The company-filter part of `companyMust` (`server.js` lines 170-176);
the key-set `terms` clause is appended by the handler (line 179). -/
def companyMustBase (f : CompanyFilters) : List CClause :=
  (if strTruthy f.id then [CClause.termId (f.id.getD "")] else []) ++
  (if strTruthy f.name then [CClause.matchName (f.name.getD "")] else [])

/-- The report-stage query (`server.js` line 157): `bool.must` when some
clause exists, else `match_all`. -/
inductive RQuery where
  | matchAll
  | boolMust (must : List RClause)
deriving Repr, DecidableEq

/-- Construction of `reportQuery.query` (`server.js` line 157). -/
def reportQueryOf (f : ReportFilters) : RQuery :=
  if (reportMust f).length ≠ 0 then .boolMust (reportMust f) else .matchAll

/-- Well-formedness of the report-stage query. -/
def RQuery.wf : RQuery → Bool
  | .matchAll => true
  | .boolMust cs => cs.all RClause.wf

/-- Report-stage query evaluation against one document. -/
def RQuery.eval : RQuery → Report → Bool
  | .matchAll, _ => true
  | .boolMust cs, r => cs.all (fun cl => cl.eval r)

/-- Model of the spread of a Set: deduplication keeping first occurrences. -/
def dedupFirst (xs : List String) : List String :=
  xs.foldl (fun acc x => if acc.contains x then acc else acc ++ [x]) []

/-- Insertion into a list sorted by the boolean relation `le`. -/
def insertLe (le : α → α → Bool) (x : α) : List α → List α
  | [] => [x]
  | y :: ys => if le x y then x :: y :: ys else y :: insertLe le x ys

/-- Sorting by a boolean relation (models the engine's sorted result set;
which stable sort the engine uses is immaterial to the claims). -/
def sortByLe (le : α → α → Bool) (xs : List α) : List α :=
  xs.foldr (insertLe le) []

/-- The search-engine state: the two indices in document order, plus
failure injection per index (engine unreachable / query rejected when the
corresponding search is issued). -/
structure Backend where
  reports : List Report
  companies : List Company
  reportsFail : Option String := none
  companiesFail : Option String := none

/-- Report-stage result ceiling (`size: 10000` in `reportQuery`,
`server.js` line 156). -/
def reportSizeCap : Nat := 10000

/-- The documents matched by the compiled report query, truncated at the
`size: 10000` ceiling (the `_source` projection lists all five report
fields, hence is the identity). -/
def matchedReports (be : Backend) (f : ReportFilters) : List Report :=
  (be.reports.filter fun r => (reportQueryOf f).eval r).take reportSizeCap

/-- Executing `reportQuery` (`server.js` line 160): fails when failure is
injected or the query is malformed (e.g. a non-array `terms` value). -/
def runReportSearch (be : Backend) (f : ReportFilters) : Except String (List Report) :=
  match be.reportsFail with
  | some m => Except.error m
  | none =>
    if (reportQueryOf f).wf then Except.ok (matchedReports be f)
    else Except.error "x_content_parse_exception"

/-- The `matchingCompanyIds` key set (`server.js` line 163): the distinct
`company_id` values of the matched reports. -/
def extractedIds (be : Backend) (f : ReportFilters) : List String :=
  dedupFirst ((matchedReports be f).map (fun r => r.company_id))

/-- The sort key function named by `sortField`: only keyword-typed fields
are sortable (`name.keyword`, `id`); sorting on other fields is rejected
by the engine. -/
def companySortKey (field : String) : Option (Company → String) :=
  if field = "name.keyword" then some (fun c => c.name)
  else if field = "id" then some (fun c => c.id)
  else none

/-- Lexicographic order on character lists by code point. -/
def charListLe : List Char → List Char → Bool
  | [], _ => true
  | _ :: _, [] => false
  | a :: as, b :: bs =>
    if a.toNat < b.toNat then true
    else if b.toNat < a.toNat then false
    else charListLe as bs

/-- Lexicographic byte-order comparison of keyword values (the order the
engine sorts un-analyzed fields by). -/
def strLe (a b : String) : Bool :=
  charListLe a.data b.data

/-- The boolean order used by the engine for `sortOrder` on a keyword
sort key. -/
def companyLe (key : Company → String) (ord : String) (a b : Company) : Bool :=
  if ord = "desc" then strLe (key b) (key a) else strLe (key a) (key b)

/-- The companies matching the full `companyMust` conjunction
(company filters plus key-set constraint). -/
def companyMatches (be : Backend) (must : List CClause) : List Company :=
  be.companies.filter fun c => must.all (fun cl => cl.eval c)

/-- Executing `companyQuery` (`server.js` lines 181-189): applies
`from`, `size` and `sort`; returns page and total hit count.  Fails on
injected failure, unsortable `sortField`, bad `sortOrder`, or negative
`from`/`size` (all rejected by the engine). -/
def runCompanySearch (be : Backend) (must : List CClause) (fromI sizeI : Int)
    (sortField sortOrder : String) : Except String (List Company × Nat) :=
  match be.companiesFail with
  | some m => Except.error m
  | none =>
    match companySortKey sortField with
    | none => Except.error "sort_field_not_mapped"
    | some key =>
      if sortOrder ≠ "asc" ∧ sortOrder ≠ "desc" then
        Except.error "unknown_sort_order"
      else if fromI < 0 ∨ sizeI < 0 then
        Except.error "illegal_from_or_size"
      else
        let matched := companyMatches be must
        Except.ok
          (((sortByLe (companyLe key sortOrder) matched).drop fromI.toNat).take sizeI.toNat,
            matched.length)

/-- The `POST /search` request body (`server.js` lines 129-136); `none`
stands for an absent key, for which destructuring supplies the default. -/
structure SearchBody where
  companyFilters : CompanyFilters := {}
  reportFilters : ReportFilters := {}
  page : Option Int := none
  size : Option Int := none
  sortField : Option String := none
  sortOrder : Option String := none
deriving Repr, DecidableEq

/-- A company of the response payload, decorated with its attached
reports (`server.js` lines 193-196). -/
structure CompanyOut where
  id : String
  name : String
  reports : List Report
deriving Repr, DecidableEq

/-- The HTTP response of `POST /search` (status code plus JSON body). -/
structure SearchResponse where
  status : Nat
  success : Bool
  total : Nat := 0
  companies : List CompanyOut := []
  error : Option String := none
deriving Repr, DecidableEq

/-- The result assembler (`server.js` lines 193-196): decorate a company
with the matched reports whose `company_id` equals its `id`. -/
def attachReports (matching : List Report) (c : Company) : CompanyOut :=
  { id := c.id, name := c.name
    reports := matching.filter (fun r => r.company_id == c.id) }

/-- The thrown-error path of the handler (`server.js` lines 204-207):
`res.status(500).json({ success: false, error: err.message })`. -/
def errorResponse (m : String) : SearchResponse :=
  { status := 500, success := false, error := some m }

/-- The empty-key-set short-circuit response (`server.js` line 166). -/
def emptyResultResponse : SearchResponse :=
  { status := 200, success := true, total := 0, companies := [] }

/-- Steps 2 and 3 of the handler (`server.js` lines 163-202), given the
matched reports of step 1: extract `matchingCompanyIds`, short-circuit
when empty, otherwise run the constrained company query (with
destructuring defaults `page=1`, `size=10`, `sortField="name.keyword"`,
`sortOrder="asc"`, lines 129-136) and assemble the result. -/
def searchStage2 (be : Backend) (b : SearchBody) (matchingReports : List Report) :
    SearchResponse :=
  if (dedupFirst (matchingReports.map fun r => r.company_id)).isEmpty then
    emptyResultResponse
  else
    match runCompanySearch be
        (companyMustBase b.companyFilters ++
          [CClause.termsIds (dedupFirst (matchingReports.map fun r => r.company_id))])
        ((b.page.getD 1 - 1) * b.size.getD 10) (b.size.getD 10)
        (b.sortField.getD "name.keyword") (b.sortOrder.getD "asc") with
    | Except.error m => errorResponse m
    | Except.ok (pageCompanies, total) =>
      { status := 200
        success := true
        total := total
        companies := pageCompanies.map (attachReports matchingReports) }

/-- The `POST /search` handler (`server.js` lines 127-208): runs the
report query, then the key-set extraction, short-circuit, company query
and result assembly of `searchStage2`.  Any thrown engine error is
caught and surfaced as a 500 `{ success: false, error }` response. -/
def searchHandler (be : Backend) (b : SearchBody) : SearchResponse :=
  match runReportSearch be b.reportFilters with
  | Except.error m => errorResponse m
  | Except.ok matchingReports => searchStage2 be b matchingReports

/-! ## Sample data and bulk indexing (`POST /insertSampleData`) -/

/-- The five sample companies `C1..C5` (`server.js` lines 76-82). -/
def sampleCompanies : List Company :=
  (List.range 5).map fun i =>
    { id := "C" ++ toString (i + 1), name := "Company " ++ toString (i + 1) }

/-- The fifteen sample reports, three per company, with a running counter
(`server.js` lines 95-108). -/
def sampleReports : List Report :=
  sampleCompanies.enum.flatMap fun p =>
    (List.range 3).map fun rj =>
      let r := rj + 1
      let counter := 3 * p.1 + r
      { id := "R" ++ toString counter
        name := "Report " ++ toString counter
        company_id := p.2.id
        tags := ["tag" ++ toString r, "common"]
        status := if r % 2 == 0 then "draft" else "published" }

/-- An index as stored by the engine: association list from `_id` to
document, in insertion order. -/
abbrev Store (α : Type) := List (String × α)

/-- Indexing one document under an explicit `_id`: overwrites in place
if the id exists, appends otherwise. -/
def upsert (k : String) (v : α) : Store α → Store α
  | [] => [(k, v)]
  | e :: rest => if e.1 = k then (k, v) :: rest else e :: upsert k v rest

/-- A bulk of `index` operations with `_id := key doc`
(`companyBulkOps` lines 85-88, `reportsBulkOps` lines 111-114). -/
def bulkIndex (docs : List α) (key : α → String) (s : Store α) : Store α :=
  docs.foldl (fun st d => upsert (key d) d st) s

/-- Number of stored documents whose `_id` is `k`. -/
def countId (k : String) (s : Store α) : Nat :=
  (s.filter fun e => e.1 = k).length

/-- Whether the store holds a document with `_id` `k`. -/
def hasKey (k : String) (s : Store α) : Bool :=
  s.any fun e => e.1 = k

/-- Effect of one `POST /insertSampleData` call on the `company` index. -/
def insertSampleCompanies (s : Store Company) : Store Company :=
  bulkIndex sampleCompanies (fun c => c.id) s

/-- Effect of one `POST /insertSampleData` call on the `reports` index. -/
def insertSampleReports (s : Store Report) : Store Report :=
  bulkIndex sampleReports (fun r => r.id) s

/-- The full `companyMust` of a request: the company filters plus the
key-set constraint (`server.js` lines 170-179). -/
def fullCompanyMust (be : Backend) (b : SearchBody) : List CClause :=
  companyMustBase b.companyFilters ++ [CClause.termsIds (extractedIds be b.reportFilters)]

/-- The parent-stage match set of a request: the companies satisfying the
joint filter+key-set conjunction, before sorting and paging. -/
def parentStageMatches (be : Backend) (b : SearchBody) : List Company :=
  companyMatches be (fullCompanyMust be b)

/-! ## Spec-side rendering of the child filter compiler (for refinement) -/

/-- Modelled from the spec's words (§4.2 rule 1): an exact-match clause
on `id` when `id` is set (a key set to the empty string counts as
absent, per the spec's absent/falsy convention). -/
def specRuleId (v : Option String) : Option RClause :=
  match v with
  | some s => if s = "" then none else some (RClause.termId s)
  | none => none

/-- Spec §4.2 rule 2: a full-text match clause on `name` when set. -/
def specRuleName (v : Option String) : Option RClause :=
  match v with
  | some s => if s = "" then none else some (RClause.matchName s)
  | none => none

/-- Spec §4.2 rule 3: an exact-match-any clause on the un-analyzed tags
sibling field when `tags` is a non-empty set. -/
def specRuleTags (v : JTags) : Option RClause :=
  match v with
  | JTags.arr [] => none
  | JTags.arr xs => some (RClause.termsTags (JTags.arr xs))
  | _ => none

/-- Spec §4.2 rule 4: an exact-match clause on `status` when set. -/
def specRuleStatus (v : Option String) : Option RClause :=
  match v with
  | some s => if s = "" then none else some (RClause.termStatus s)
  | none => none

/-- The claim's clause list: the four rules applied in the fixed order
id, name, tags, status, each contributing zero or one clause. -/
def specChildClauses (f : ReportFilters) : List RClause :=
  [specRuleId f.id, specRuleName f.name, specRuleTags f.tags,
    specRuleStatus f.status].filterMap id

/-! ## Concrete fixtures used by witnesses and counterexamples -/

/-- A small backend: two companies, one report each. -/
def tinyBackend : Backend :=
  { reports :=
      [ { id := "r1", name := "alpha", company_id := "c1", tags := ["t"], status := "draft" },
        { id := "r2", name := "beta", company_id := "c2", tags := ["u"], status := "published" } ]
    companies :=
      [ { id := "c1", name := "Acme" }, { id := "c2", name := "Beta" } ] }

/-- An eleven-element company roster `A01 .. A11`. -/
def wideCompanies : List Company :=
  [ { id := "A01", name := "A01" }, { id := "A02", name := "A02" },
    { id := "A03", name := "A03" }, { id := "A04", name := "A04" },
    { id := "A05", name := "A05" }, { id := "A06", name := "A06" },
    { id := "A07", name := "A07" }, { id := "A08", name := "A08" },
    { id := "A09", name := "A09" }, { id := "A10", name := "A10" },
    { id := "A11", name := "A11" } ]

/-- A report filter with all four keys set to well-typed values. -/
def fullFilter : ReportFilters :=
  { id := some "r1"
    name := some "weekly"
    tags := JTags.arr ["a", "b"]
    status := some "draft" }

/-- A backend with eleven companies, each owning one report: more
qualifying parents than the default page size of 10. -/
def wideBackend : Backend :=
  { companies := wideCompanies
    reports := wideCompanies.map fun c =>
      { id := "r" ++ c.id, name := "rep", company_id := c.id, tags := [], status := "ok" } }

/-! ## Helper lemmas -/

theorem mem_insertLe {le : α → α → Bool} {x a : α} {l : List α} :
    a ∈ insertLe le x l ↔ a = x ∨ a ∈ l := by
  induction l with
  | nil => simp [insertLe]
  | cons y ys ih =>
    simp only [insertLe]
    by_cases h : le x y = true
    · rw [if_pos h]
      exact List.mem_cons
    · rw [if_neg h, List.mem_cons, ih, List.mem_cons]
      tauto

theorem mem_sortByLe {le : α → α → Bool} {a : α} {l : List α} :
    a ∈ sortByLe le l ↔ a ∈ l := by
  induction l with
  | nil => simp [sortByLe]
  | cons y ys ih =>
    show a ∈ insertLe le y (sortByLe le ys) ↔ a ∈ y :: ys
    rw [mem_insertLe, ih, List.mem_cons]

theorem mem_dedupFirst_aux {xs acc : List String} {a : String} :
    a ∈ xs.foldl (fun acc x => if acc.contains x then acc else acc ++ [x]) acc ↔
      a ∈ acc ∨ a ∈ xs := by
  induction xs generalizing acc with
  | nil => simp
  | cons x xs ih =>
    simp only [List.foldl_cons]
    by_cases h : acc.contains x = true
    · rw [if_pos h, ih]
      have hx : x ∈ acc := by simpa using h
      constructor
      · rintro (ha | ha)
        · exact Or.inl ha
        · exact Or.inr (List.mem_cons_of_mem _ ha)
      · rintro (ha | ha)
        · exact Or.inl ha
        · rcases List.mem_cons.mp ha with rfl | ha
          · exact Or.inl hx
          · exact Or.inr ha
    · rw [if_neg h, ih]
      simp [List.mem_append, List.mem_cons]
      tauto

theorem mem_dedupFirst {xs : List String} {a : String} :
    a ∈ dedupFirst xs ↔ a ∈ xs := by
  unfold dedupFirst
  rw [mem_dedupFirst_aux]
  simp

theorem dedupFirst_isEmpty {xs : List String} :
    (dedupFirst xs).isEmpty = xs.isEmpty := by
  cases hxs : xs with
  | nil => simp [dedupFirst]
  | cons x rest =>
    have hx : x ∈ dedupFirst (x :: rest) := mem_dedupFirst.mpr (List.mem_cons_self x rest)
    cases hd : dedupFirst (x :: rest) with
    | nil => simp [hd] at hx
    | cons y ys => simp

theorem hasKey_cons {j : String} {e : String × α} {s : Store α} :
    hasKey j (e :: s) = (decide (e.1 = j) || hasKey j s) := rfl

theorem countId_cons {j : String} {e : String × α} {s : Store α} :
    countId j (e :: s) = countId j s + (if e.1 = j then 1 else 0) := by
  by_cases h : e.1 = j <;> simp [countId, List.filter_cons, h, Nat.add_comm]

theorem upsert_cons_hit {k : String} {v : α} {e : String × α} {s : Store α}
    (he : e.1 = k) : upsert k v (e :: s) = (k, v) :: s := by
  simp [upsert, he]

theorem upsert_cons_miss {k : String} {v : α} {e : String × α} {s : Store α}
    (he : ¬ e.1 = k) : upsert k v (e :: s) = e :: upsert k v s := by
  simp [upsert, he]

theorem hasKey_upsert {j k : String} {v : α} {s : Store α} :
    hasKey j (upsert k v s) = (decide (j = k) || hasKey j s) := by
  induction s with
  | nil =>
    show (decide (k = j) || false) = (decide (j = k) || false)
    by_cases h : j = k
    · simp [h]
    · have h' : ¬ k = j := fun hh => h hh.symm
      simp [h, h']
  | cons e rest ih =>
    by_cases he : e.1 = k
    · rw [upsert_cons_hit he, hasKey_cons, hasKey_cons]
      by_cases h : j = k
      · simp [h, he]
      · have h' : ¬ k = j := fun hh => h hh.symm
        have he' : ¬ e.1 = j := fun hh => h' (he ▸ hh)
        simp [h, h', he']
    · rw [upsert_cons_miss he, hasKey_cons, hasKey_cons, ih]
      cases h1 : decide (e.1 = j) <;> cases h2 : decide (j = k) <;> simp [h1, h2]

theorem countId_upsert {j k : String} {v : α} {s : Store α} :
    countId j (upsert k v s) =
      if j = k ∧ hasKey k s = false then countId j s + 1 else countId j s := by
  induction s with
  | nil =>
    by_cases hj : j = k
    · simp [upsert, countId, hasKey, hj]
    · have hj' : ¬ k = j := fun hh => hj hh.symm
      simp [upsert, countId, hasKey, hj, hj']
  | cons e rest ih =>
    by_cases he : e.1 = k
    · have hk : hasKey k (e :: rest) = true := by
        rw [hasKey_cons]
        simp [he]
      rw [upsert_cons_hit he, hk, countId_cons, countId_cons]
      simp only [Bool.true_eq_false, and_false, if_false]
      rw [he]
    · have hk : hasKey k (e :: rest) = hasKey k rest := by
        rw [hasKey_cons]
        simp [he]
      rw [upsert_cons_miss he, hk, countId_cons, ih, countId_cons]
      by_cases hc : j = k ∧ hasKey k rest = false
      · rw [if_pos hc, if_pos hc]
        omega
      · rw [if_neg hc, if_neg hc]

theorem hasKey_bulkIndex {j : String} {key : α → String} {docs : List α} {s : Store α} :
    hasKey j (bulkIndex docs key s) = (docs.any (fun d => decide (key d = j)) || hasKey j s) := by
  induction docs generalizing s with
  | nil => simp [bulkIndex]
  | cons d ds ih =>
    show hasKey j (bulkIndex ds key (upsert (key d) d s)) = _
    rw [ih, hasKey_upsert, List.any_cons]
    by_cases hd : key d = j
    · simp [hd]
    · have hd' : ¬ j = key d := fun hh => hd hh.symm
      simp [hd, hd']

theorem countId_bulkIndex {j : String} {key : α → String} {docs : List α} {s : Store α} :
    countId j (bulkIndex docs key s) =
      if docs.any (fun d => decide (key d = j)) = true ∧ hasKey j s = false
        then countId j s + 1 else countId j s := by
  induction docs generalizing s with
  | nil => simp [bulkIndex]
  | cons d ds ih =>
    show countId j (bulkIndex ds key (upsert (key d) d s)) = _
    rw [ih, countId_upsert, hasKey_upsert, List.any_cons]
    by_cases hd : key d = j
    · by_cases hs : hasKey j s = false
      · simp [hd, hs]
      · simp [hd, hs]
    · have hd' : ¬ j = key d := fun hh => hd hh.symm
      by_cases hds : ds.any (fun x => decide (key x = j)) = true
      · by_cases hs : hasKey j s = false <;> simp [hd, hd', hds, hs]
      · simp [hd, hd', hds]

theorem runReportSearch_ok {be : Backend} {f : ReportFilters} {l : List Report}
    (h : runReportSearch be f = Except.ok l) :
    be.reportsFail = none ∧ (reportQueryOf f).wf = true ∧ l = matchedReports be f := by
  unfold runReportSearch at h
  cases hrf : be.reportsFail with
  | some m => rw [hrf] at h; simp at h
  | none =>
    rw [hrf] at h
    by_cases hwf : (reportQueryOf f).wf = true
    · rw [if_pos hwf] at h
      cases h
      exact ⟨rfl, hwf, rfl⟩
    · rw [if_neg hwf] at h
      simp at h

theorem runCompanySearch_ok {be : Backend} {must : List CClause} {fromI sizeI : Int}
    {sf so : String} {pg : List Company} {tot : Nat}
    (h : runCompanySearch be must fromI sizeI sf so = Except.ok (pg, tot)) :
    be.companiesFail = none ∧
    ∃ key, companySortKey sf = some key ∧
      pg = ((sortByLe (companyLe key so) (companyMatches be must)).drop fromI.toNat).take sizeI.toNat ∧
      tot = (companyMatches be must).length := by
  unfold runCompanySearch at h
  cases hcf : be.companiesFail with
  | some m => rw [hcf] at h; simp at h
  | none =>
    simp only [hcf] at h
    cases hkey : companySortKey sf with
    | none => rw [hkey] at h; simp at h
    | some key =>
      simp only [hkey] at h
      by_cases hord : so ≠ "asc" ∧ so ≠ "desc"
      · rw [if_pos hord] at h; simp at h
      · rw [if_neg hord] at h
        by_cases hneg : fromI < 0 ∨ sizeI < 0
        · rw [if_pos hneg] at h; simp at h
        · rw [if_neg hneg] at h
          simp only [Except.ok.injEq, Prod.mk.injEq] at h
          exact ⟨rfl, key, rfl, h.1.symm, h.2.symm⟩

theorem searchHandler_error_eq {be : Backend} {b : SearchBody} {m : String}
    (hrep : runReportSearch be b.reportFilters = Except.error m) :
    searchHandler be b = errorResponse m := by
  unfold searchHandler
  rw [hrep]

theorem searchHandler_ok_eq {be : Backend} {b : SearchBody} {l : List Report}
    (hrep : runReportSearch be b.reportFilters = Except.ok l) :
    searchHandler be b = searchStage2 be b l := by
  unfold searchHandler
  rw [hrep]

theorem searchStage2_empty {be : Backend} {b : SearchBody} {l : List Report}
    (h : (dedupFirst (l.map fun r => r.company_id)).isEmpty = true) :
    searchStage2 be b l = emptyResultResponse := by
  unfold searchStage2
  rw [if_pos h]

theorem searchStage2_err {be : Backend} {b : SearchBody} {l : List Report} {m : String}
    (h : ¬ (dedupFirst (l.map fun r => r.company_id)).isEmpty = true)
    (hcomp : runCompanySearch be
        (companyMustBase b.companyFilters ++
          [CClause.termsIds (dedupFirst (l.map fun r => r.company_id))])
        ((b.page.getD 1 - 1) * b.size.getD 10) (b.size.getD 10)
        (b.sortField.getD "name.keyword") (b.sortOrder.getD "asc") = Except.error m) :
    searchStage2 be b l = errorResponse m := by
  unfold searchStage2
  rw [if_neg h, hcomp]

theorem searchStage2_full {be : Backend} {b : SearchBody} {l : List Report}
    {pg : List Company} {tot : Nat}
    (h : ¬ (dedupFirst (l.map fun r => r.company_id)).isEmpty = true)
    (hcomp : runCompanySearch be
        (companyMustBase b.companyFilters ++
          [CClause.termsIds (dedupFirst (l.map fun r => r.company_id))])
        ((b.page.getD 1 - 1) * b.size.getD 10) (b.size.getD 10)
        (b.sortField.getD "name.keyword") (b.sortOrder.getD "asc") = Except.ok (pg, tot)) :
    searchStage2 be b l =
      { status := 200, success := true, total := tot
        companies := pg.map (attachReports l), error := none } := by
  unfold searchStage2
  rw [if_neg h, hcomp]

/-- Every successful `/search` response arises either from the empty
key-set short-circuit or from the full two-stage path, with the shown
payload. -/
theorem searchHandler_success_cases {be : Backend} {b : SearchBody}
    (h : (searchHandler be b).success = true) :
    (matchedReports be b.reportFilters = [] ∧
      searchHandler be b = emptyResultResponse) ∨
    (matchedReports be b.reportFilters ≠ [] ∧
      ∃ key, companySortKey (b.sortField.getD "name.keyword") = some key ∧
        searchHandler be b =
          { status := 200, success := true
            total := (parentStageMatches be b).length
            companies :=
              (((sortByLe (companyLe key (b.sortOrder.getD "asc"))
                    (parentStageMatches be b)).drop
                  (((b.page.getD 1 - 1) * b.size.getD 10).toNat)).take
                (b.size.getD 10).toNat).map
                (attachReports (matchedReports be b.reportFilters))
            error := none }) := by
  cases hrep : runReportSearch be b.reportFilters with
  | error m =>
    rw [searchHandler_error_eq hrep] at h
    simp [errorResponse] at h
  | ok l =>
    obtain ⟨-, -, hl⟩ := runReportSearch_ok hrep
    subst hl
    rw [searchHandler_ok_eq hrep] at h ⊢
    by_cases hemp :
        (dedupFirst ((matchedReports be b.reportFilters).map fun r => r.company_id)).isEmpty = true
    · left
      have hnil : matchedReports be b.reportFilters = [] := by
        rw [dedupFirst_isEmpty] at hemp
        simpa using hemp
      exact ⟨hnil, searchStage2_empty hemp⟩
    · cases hcomp : runCompanySearch be
          (companyMustBase b.companyFilters ++
            [CClause.termsIds
              (dedupFirst ((matchedReports be b.reportFilters).map fun r => r.company_id))])
          ((b.page.getD 1 - 1) * b.size.getD 10) (b.size.getD 10)
          (b.sortField.getD "name.keyword") (b.sortOrder.getD "asc") with
      | error m =>
        rw [searchStage2_err hemp hcomp] at h
        simp [errorResponse] at h
      | ok pr =>
        obtain ⟨pg, tot⟩ := pr
        obtain ⟨-, key, hkey, hpg, htot⟩ := runCompanySearch_ok hcomp
        right
        have hne : matchedReports be b.reportFilters ≠ [] := by
          intro hnil
          rw [hnil] at hemp
          simp [dedupFirst] at hemp
        refine ⟨hne, key, hkey, ?_⟩
        rw [searchStage2_full hemp hcomp, hpg, htot]
        rfl

theorem mem_of_mem_page {le : Company → Company → Bool} {c : Company} {l : List Company}
    {i j : Nat} (h : c ∈ ((sortByLe le l).drop i).take j) : c ∈ l :=
  mem_sortByLe.mp (List.drop_subset i _ (List.take_subset j _ h))

/-- A company in the parent-stage match set owns at least one matched
report: its `id` came out of the extracted key set. -/
theorem attached_nonempty {be : Backend} {b : SearchBody} {c : Company}
    (hc : c ∈ parentStageMatches be b) :
    (matchedReports be b.reportFilters).filter (fun r => r.company_id == c.id) ≠ [] := by
  unfold parentStageMatches companyMatches fullCompanyMust at hc
  obtain ⟨hcmem, hall⟩ := List.mem_filter.mp hc
  rw [List.all_append] at hall
  have hterms : (CClause.termsIds (extractedIds be b.reportFilters)).eval c = true := by
    have h2 := (Bool.and_eq_true_iff.mp hall).2
    simpa [List.all_cons] using h2
  have hmem : c.id ∈ extractedIds be b.reportFilters := by
    simpa [CClause.eval] using hterms
  unfold extractedIds at hmem
  rw [mem_dedupFirst] at hmem
  obtain ⟨r, hr, hrid⟩ := List.mem_map.mp hmem
  exact List.ne_nil_of_mem
    (List.mem_filter.mpr ⟨hr, by simp [hrid]⟩)

/-! ## Claims -/

/-- C1: in every successful federated `/search` response, every returned
parent has at least one attached child, every attached child satisfies
the compiled child-side query, and every attached child's `company_id`
equals that parent's `id` (no child of a different parent appears). -/
theorem C1_join_correctness (be : Backend) (b : SearchBody)
    (hs : (searchHandler be b).success = true) :
    ∀ c ∈ (searchHandler be b).companies,
      c.reports ≠ [] ∧
      ∀ r ∈ c.reports,
        (reportQueryOf b.reportFilters).eval r = true ∧ r.company_id = c.id := by
  rcases searchHandler_success_cases hs with ⟨-, heq⟩ | ⟨-, key, hkey, heq⟩
  · rw [heq]
    intro c hc
    simp [emptyResultResponse] at hc
  · rw [heq]
    intro c hc
    simp only [List.mem_map] at hc
    obtain ⟨c0, hc0, rfl⟩ := hc
    have hcm : c0 ∈ parentStageMatches be b := mem_of_mem_page hc0
    refine ⟨attached_nonempty hcm, ?_⟩
    intro r hr
    simp only [attachReports] at hr
    obtain ⟨hrmem, hrid⟩ := List.mem_filter.mp hr
    refine ⟨?_, by simpa [attachReports] using hrid⟩
    have hrf : r ∈ be.reports.filter (fun r => (reportQueryOf b.reportFilters).eval r) :=
      List.take_subset _ _ hrmem
    exact (List.mem_filter.mp hrf).2

/-- C1 witness: a concrete successful search on the small backend. -/
theorem C1_join_correctness_witness :
    (searchHandler tinyBackend {}).success = true ∧
    ∀ c ∈ (searchHandler tinyBackend {}).companies,
      c.reports ≠ [] ∧
      ∀ r ∈ c.reports,
        (reportQueryOf ({} : SearchBody).reportFilters).eval r = true ∧ r.company_id = c.id :=
  ⟨by decide, C1_join_correctness tinyBackend {} (by decide)⟩

/-- C2: when the child-stage query matches zero reports, `/search`
returns `{ success: true, total: 0, companies: [] }`, and it does so for
every state of the company index and of the company-stage engine — no
query is issued against the parent collection. -/
theorem C2_empty_join_short_circuit (be : Backend) (b : SearchBody)
    (h1 : be.reportsFail = none)
    (h2 : (reportQueryOf b.reportFilters).wf = true)
    (h3 : be.reports.filter (fun r => (reportQueryOf b.reportFilters).eval r) = []) :
    searchHandler be b = emptyResultResponse ∧
    ∀ (cs : List Company) (cf : Option String),
      searchHandler { be with companies := cs, companiesFail := cf } b =
        emptyResultResponse := by
  have key : ∀ be' : Backend, be'.reportsFail = none →
      be'.reports = be.reports → searchHandler be' b = emptyResultResponse := by
    intro be' h1' hrep
    have hok : runReportSearch be' b.reportFilters = Except.ok [] := by
      unfold runReportSearch
      rw [h1']
      simp only [if_pos h2]
      unfold matchedReports
      rw [hrep, h3]
      rfl
    rw [searchHandler_ok_eq hok]
    exact searchStage2_empty (by simp [dedupFirst])
  exact ⟨key be h1 rfl, fun cs cf => key _ h1 rfl⟩

/-- C2 witness: empty report index, a poisoned company stage, and a
nonempty company list still yield the empty success response. -/
theorem C2_empty_join_short_circuit_witness :
    searchHandler
        { reports := [], companies := [{ id := "c1", name := "Acme" }],
          companiesFail := some "down" } {} =
      emptyResultResponse :=
  (C2_empty_join_short_circuit
    { reports := [], companies := [{ id := "c1", name := "Acme" }],
      companiesFail := some "down" } {} rfl (by decide) rfl).1

/-- When no report matched, no company passes the key-set constraint. -/
theorem parentStageMatches_nil {be : Backend} {b : SearchBody}
    (h : matchedReports be b.reportFilters = []) :
    parentStageMatches be b = [] := by
  unfold parentStageMatches companyMatches
  apply List.filter_eq_nil_iff.mpr
  intro c hc
  unfold fullCompanyMust extractedIds
  rw [h]
  simp [dedupFirst, List.all_append, CClause.eval]

/-- The `total` of every successful response counts the parent-stage
match set. -/
theorem total_eq_parentStage {be : Backend} {b : SearchBody}
    (hs : (searchHandler be b).success = true) :
    (searchHandler be b).total = (parentStageMatches be b).length := by
  rcases searchHandler_success_cases hs with ⟨hnil, heq⟩ | ⟨-, key, hkey, heq⟩
  · rw [heq, parentStageMatches_nil hnil]
    rfl
  · rw [heq]

/-- C4: the `total` of every successful federated `/search` response is
the parent-stage hit count under the conjunction of the company filter
and the extracted key-set constraint, and it does not change when the
requested `page` and `size` change. -/
theorem C4_total_semantics (be : Backend) (b : SearchBody)
    (hs : (searchHandler be b).success = true) :
    (searchHandler be b).total = (parentStageMatches be b).length ∧
    ∀ p s : Option Int,
      (searchHandler be { b with page := p, size := s }).success = true →
      (searchHandler be { b with page := p, size := s }).total =
        (searchHandler be b).total := by
  refine ⟨total_eq_parentStage hs, ?_⟩
  intro p s hs'
  rw [total_eq_parentStage hs', total_eq_parentStage hs]
  rfl

/-- C4 witness: concrete totals on the small backend. -/
theorem C4_total_semantics_witness :
    (searchHandler tinyBackend {}).success = true ∧
    ((searchHandler tinyBackend {}).total = (parentStageMatches tinyBackend {}).length ∧
      ∀ p s : Option Int,
        (searchHandler tinyBackend { page := p, size := s }).success = true →
        (searchHandler tinyBackend { page := p, size := s }).total =
          (searchHandler tinyBackend {}).total) :=
  ⟨by decide, C4_total_semantics tinyBackend {} (by decide)⟩

/-- C5: destructuring defaults are `page=1`, `size=10`,
`sortField="name.keyword"`, `sortOrder="asc"`; every returned parent
carries the full set of matched children with its `id` (a child fetch
that never sees `page`/`size`/`sort`); and offset `(page-1)*size`,
limit `size` and the sort order are applied to the parent stage only. -/
theorem C5_pagination_parent_only (be : Backend) (b : SearchBody)
    (hs : (searchHandler be b).success = true) :
    searchHandler be
        { b with page := none, size := none, sortField := none, sortOrder := none } =
      searchHandler be
        { b with
          page := some 1
          size := some 10
          sortField := some "name.keyword"
          sortOrder := some "asc" } ∧
    (∀ c ∈ (searchHandler be b).companies,
      c.reports = (matchedReports be b.reportFilters).filter
        (fun r => r.company_id == c.id)) ∧
    ((searchHandler be b).companies ≠ [] →
      ∃ key, companySortKey (b.sortField.getD "name.keyword") = some key ∧
        (searchHandler be b).companies =
          (((sortByLe (companyLe key (b.sortOrder.getD "asc"))
                (parentStageMatches be b)).drop
              (((b.page.getD 1 - 1) * b.size.getD 10).toNat)).take
            (b.size.getD 10).toNat).map
            (attachReports (matchedReports be b.reportFilters))) := by
  refine ⟨rfl, ?_, ?_⟩
  · intro c hc
    rcases searchHandler_success_cases hs with ⟨-, heq⟩ | ⟨-, key, hkey, heq⟩
    · rw [heq] at hc
      simp [emptyResultResponse] at hc
    · rw [heq] at hc
      simp only [List.mem_map] at hc
      obtain ⟨c0, -, rfl⟩ := hc
      rfl
  · intro hne
    rcases searchHandler_success_cases hs with ⟨-, heq⟩ | ⟨-, key, hkey, heq⟩
    · rw [heq] at hne
      simp [emptyResultResponse] at hne
    · exact ⟨key, hkey, by rw [heq]⟩

/-- C5 witness: the small backend with a non-default page request. -/
theorem C5_pagination_parent_only_witness :
    (searchHandler tinyBackend { page := some 2, size := some 1 }).success = true ∧
    (∀ c ∈ (searchHandler tinyBackend { page := some 2, size := some 1 }).companies,
      c.reports = (matchedReports tinyBackend
          ({ page := some 2, size := some 1 } : SearchBody).reportFilters).filter
        (fun r => r.company_id == c.id)) :=
  ⟨by decide,
    (C5_pagination_parent_only tinyBackend { page := some 2, size := some 1 }
      (by decide)).2.1⟩

/-- C3 counterexample: eleven parents each own a child and the `{}`
search succeeds, yet `A11` (a parent with a child) is absent from the
returned list — only ten parents come back, so the response does not
return every parent that has at least one child. -/
theorem C3_counterexample :
    (searchHandler wideBackend {}).success = true ∧
    wideBackend.companies.any
      (fun c => c.id == "A11" && wideBackend.reports.any (fun r => r.company_id == c.id)) = true ∧
    (searchHandler wideBackend {}).companies.all (fun c => c.id ≠ "A11") = true ∧
    (searchHandler wideBackend {}).companies.length = 10 ∧
    (wideBackend.companies.filter
      (fun c => wideBackend.reports.any (fun r => r.company_id == c.id))).length = 11 := by
  decide

/-- C3 (amended): with zero recognized fields set both compiled queries
are match-everything (the parent query constrained only by the key set);
`/search` with `{}` succeeds, its `total` counts every parent that has
at least one child, and the returned list is the first `size` (default
10) of those parents in the default sort order — hence every such
parent only when at most 10 qualify. -/
theorem C3_match_all_amended (be : Backend)
    (h1 : be.reportsFail = none) (h2 : be.companiesFail = none)
    (hcap : be.reports.length ≤ reportSizeCap) :
    reportQueryOf {} = RQuery.matchAll ∧
    companyMustBase {} = [] ∧
    (searchHandler be {}).success = true ∧
    (searchHandler be {}).total =
      (be.companies.filter (fun c => be.reports.any (fun r => r.company_id == c.id))).length ∧
    (searchHandler be {}).companies =
      (((sortByLe (companyLe (fun c => c.name) "asc")
          (be.companies.filter
            (fun c => be.reports.any (fun r => r.company_id == c.id)))).take 10).map
        (attachReports be.reports)) := by
  have hmr : matchedReports be ({} : SearchBody).reportFilters = be.reports := by
    unfold matchedReports
    rw [show (fun r => (reportQueryOf ({} : SearchBody).reportFilters).eval r) =
        (fun _ : Report => true) from rfl]
    rw [List.filter_true]
    exact List.take_of_length_le hcap
  have hok : runReportSearch be ({} : SearchBody).reportFilters = Except.ok be.reports := by
    unfold runReportSearch
    rw [h1, hmr]
    rfl
  have hfilter : companyMatches be
      (companyMustBase ({} : SearchBody).companyFilters ++
        [CClause.termsIds (dedupFirst (be.reports.map fun r => r.company_id))]) =
      be.companies.filter (fun c => be.reports.any (fun r => r.company_id == c.id)) := by
    unfold companyMatches
    apply List.filter_congr
    intro c _
    rw [Bool.eq_iff_iff]
    rw [show companyMustBase ({} : SearchBody).companyFilters = [] from rfl]
    simp only [List.nil_append, List.all_cons, List.all_nil, Bool.and_true]
    rw [show (CClause.termsIds (dedupFirst (be.reports.map fun r => r.company_id))).eval c =
        (dedupFirst (be.reports.map fun r => r.company_id)).contains c.id from rfl]
    constructor
    · intro hcont
      have hm : c.id ∈ dedupFirst (be.reports.map fun r => r.company_id) := by
        simpa using hcont
      rw [mem_dedupFirst] at hm
      obtain ⟨r, hr, hrid⟩ := List.mem_map.mp hm
      rw [List.any_eq_true]
      exact ⟨r, hr, by simp [hrid]⟩
    · intro hany
      obtain ⟨r, hr, hrid⟩ := List.any_eq_true.mp hany
      have hm : c.id ∈ dedupFirst (be.reports.map fun r => r.company_id) := by
        rw [mem_dedupFirst]
        exact List.mem_map.mpr ⟨r, hr, by simpa using hrid⟩
      simpa using hm
  by_cases hrep : be.reports = []
  · have heq : searchHandler be {} = emptyResultResponse := by
      rw [searchHandler_ok_eq hok, hrep]
      exact searchStage2_empty rfl
    refine ⟨rfl, rfl, ?_, ?_, ?_⟩
    · rw [heq]
      rfl
    · rw [heq, hrep]
      simp [emptyResultResponse]
    · rw [heq, hrep]
      simp [emptyResultResponse, sortByLe]
  · have hemp : ¬ (dedupFirst (be.reports.map fun r => r.company_id)).isEmpty = true := by
      rw [dedupFirst_isEmpty]
      cases hrepc : be.reports with
      | nil => exact absurd hrepc hrep
      | cons r rs => simp
    have hcomp : runCompanySearch be
        (companyMustBase ({} : SearchBody).companyFilters ++
          [CClause.termsIds (dedupFirst (be.reports.map fun r => r.company_id))])
        ((({} : SearchBody).page.getD 1 - 1) * ({} : SearchBody).size.getD 10)
        (({} : SearchBody).size.getD 10)
        (({} : SearchBody).sortField.getD "name.keyword")
        (({} : SearchBody).sortOrder.getD "asc") =
        Except.ok
          (((sortByLe (companyLe (fun c => c.name) "asc")
              (companyMatches be
                (companyMustBase ({} : SearchBody).companyFilters ++
                  [CClause.termsIds
                    (dedupFirst (be.reports.map fun r => r.company_id))]))).drop 0).take 10,
            (companyMatches be
              (companyMustBase ({} : SearchBody).companyFilters ++
                [CClause.termsIds
                  (dedupFirst (be.reports.map fun r => r.company_id))])).length) := by
      unfold runCompanySearch
      rw [h2]
      rfl
    have heq := searchStage2_full hemp hcomp
    rw [searchHandler_ok_eq hok, heq, hfilter]
    refine ⟨rfl, rfl, rfl, rfl, ?_⟩
    simp [List.drop_zero]

/-- C3 amended witness: the small backend, where both parents qualify. -/
theorem C3_match_all_amended_witness :
    tinyBackend.reports.length ≤ reportSizeCap ∧
    (searchHandler tinyBackend {}).total =
      (tinyBackend.companies.filter
        (fun c => tinyBackend.reports.any (fun r => r.company_id == c.id))).length :=
  ⟨by decide, (C3_match_all_amended tinyBackend rfl rfl (by decide)).2.2.2.1⟩

/-- C6: on a well-typed filter object (`tags` absent or a string array),
the compiler emits exactly the spec's clauses in the fixed order id,
name, tags, status, each key contributing its clause only when set. -/
theorem C6_fixed_clause_order (f : ReportFilters)
    (htags : f.tags = JTags.absent ∨ ∃ xs, f.tags = JTags.arr xs) :
    reportMust f = specChildClauses f := by
  obtain ⟨fid, fname, ftags, fstatus⟩ := f
  have hspec : specChildClauses ⟨fid, fname, ftags, fstatus⟩ =
      (specRuleId fid).toList ++ ((specRuleName fname).toList ++
        ((specRuleTags ftags).toList ++ (specRuleStatus fstatus).toList)) := by
    unfold specChildClauses
    cases specRuleId fid <;> cases specRuleName fname <;>
      cases specRuleTags ftags <;> cases specRuleStatus fstatus <;> rfl
  have hid : (if strTruthy fid then [RClause.termId (fid.getD "")] else []) =
      (specRuleId fid).toList := by
    cases fid with
    | none => rfl
    | some s =>
      by_cases hs : s = ""
      · simp [strTruthy, specRuleId, hs]
      · simp [strTruthy, specRuleId, hs]
  have hname : (if strTruthy fname then [RClause.matchName (fname.getD "")] else []) =
      (specRuleName fname).toList := by
    cases fname with
    | none => rfl
    | some s =>
      by_cases hs : s = ""
      · simp [strTruthy, specRuleName, hs]
      · simp [strTruthy, specRuleName, hs]
  have htseg : (if ftags.truthy && ftags.lengthTruthy then [RClause.termsTags ftags] else []) =
      (specRuleTags ftags).toList := by
    rcases htags with h | ⟨xs, h⟩ <;> subst h
    · rfl
    · cases xs with
      | nil => rfl
      | cons x xs' => simp [JTags.truthy, JTags.lengthTruthy, specRuleTags]
  have hstatus : (if strTruthy fstatus then [RClause.termStatus (fstatus.getD "")] else []) =
      (specRuleStatus fstatus).toList := by
    cases fstatus with
    | none => rfl
    | some s =>
      by_cases hs : s = ""
      · simp [strTruthy, specRuleStatus, hs]
      · simp [strTruthy, specRuleStatus, hs]
  rw [hspec]
  unfold reportMust
  rw [hid, hname, htseg, hstatus, List.append_assoc, List.append_assoc]

/-- C6 witness: a fully-populated well-typed filter. -/
theorem C6_fixed_clause_order_witness :
    (fullFilter.tags = JTags.absent ∨ ∃ xs, fullFilter.tags = JTags.arr xs) ∧
    reportMust fullFilter = specChildClauses fullFilter :=
  ⟨Or.inr ⟨["a", "b"], rfl⟩,
    C6_fixed_clause_order fullFilter (Or.inr ⟨["a", "b"], rfl⟩)⟩

/-- A nonempty string has nonzero length. -/
theorem strLength_ne_zero {s : String} (h : s ≠ "") : s.length ≠ 0 := by
  intro h0
  apply h
  cases s with
  | mk data =>
    simp [String.length] at h0
    simp [h0]

/-- C7 counterexample: a `tags` value of the wrong type (the number 5)
is silently dropped — the compiled clause list is empty and the request
succeeds — rather than failing with any `InvalidFilter` error. -/
theorem C7_counterexample :
    reportMust { tags := JTags.num 5 } = [] ∧
    (searchHandler tinyBackend { reportFilters := { tags := JTags.num 5 } }).success = true ∧
    (searchHandler tinyBackend { reportFilters := { tags := JTags.num 5 } }).error = none := by
  decide

/-- C7 (amended): malformed filter values are never validated: a
non-sequence `tags` whose `length` property is missing or zero (number,
boolean) is silently coerced to "no clause", while a non-empty string
`tags` is forwarded to the search backend inside a `terms` clause, which
the backend rejects at stage one — the request then fails with the
generic backend failure response, not with an `InvalidFilter` error. -/
theorem C7_no_invalid_filter_amended (f : ReportFilters) (be : Backend) (b : SearchBody)
    (n : Int) (bv : Bool) (s : String)
    (hs : s ≠ "") (hrf : be.reportsFail = none)
    (hb : b.reportFilters = { f with tags := JTags.str s }) :
    reportMust { f with tags := JTags.num n } = reportMust { f with tags := JTags.absent } ∧
    reportMust { f with tags := JTags.boolean bv } =
      reportMust { f with tags := JTags.absent } ∧
    RClause.termsTags (JTags.str s) ∈ reportMust { f with tags := JTags.str s } ∧
    searchHandler be b = errorResponse "x_content_parse_exception" := by
  obtain ⟨fid, fname, ftags, fstatus⟩ := f
  have hstr : ((JTags.str s).truthy && (JTags.str s).lengthTruthy) = true := by
    simp [JTags.truthy, JTags.lengthTruthy, hs, strLength_ne_zero hs]
  have hmem : RClause.termsTags (JTags.str s) ∈
      reportMust ⟨fid, fname, JTags.str s, fstatus⟩ := by
    unfold reportMust
    rw [hstr]
    simp
  refine ⟨?_, ?_, hmem, ?_⟩
  · unfold reportMust
    simp [JTags.lengthTruthy]
  · unfold reportMust
    simp [JTags.lengthTruthy]
  · have hmem' : RClause.termsTags (JTags.str s) ∈ reportMust b.reportFilters := by
      rw [hb]
      exact hmem
    have hlen : (reportMust b.reportFilters).length ≠ 0 := by
      intro h0
      rw [List.length_eq_zero] at h0
      rw [h0] at hmem'
      simp at hmem'
    have hq : reportQueryOf b.reportFilters =
        RQuery.boolMust (reportMust b.reportFilters) := by
      unfold reportQueryOf
      rw [if_pos hlen]
    have hwf : (reportQueryOf b.reportFilters).wf = false := by
      rw [hq]
      show (reportMust b.reportFilters).all RClause.wf = false
      rw [List.all_eq_false]
      exact ⟨_, hmem', by simp [RClause.wf]⟩
    have hrep : runReportSearch be b.reportFilters =
        Except.error "x_content_parse_exception" := by
      unfold runReportSearch
      rw [hrf]
      simp [hwf]
    exact searchHandler_error_eq hrep

/-- C7 amended witness: string-typed `tags` rejected at the backend. -/
theorem C7_no_invalid_filter_amended_witness :
    ("abc" : String) ≠ "" ∧
    searchHandler tinyBackend { reportFilters := { tags := JTags.str "abc" } } =
      errorResponse "x_content_parse_exception" :=
  ⟨by decide,
    (C7_no_invalid_filter_amended {} tinyBackend
      { reportFilters := { tags := JTags.str "abc" } } 5 true "abc"
      (by decide) rfl rfl).2.2.2⟩

/-- C8: an engine error at either stage makes the whole operation fail
with the structured 500 `{ success: false, error }` response, carrying
no partial results (empty company list, zero total). -/
theorem C8_failure_no_partial_results (be : Backend) (b : SearchBody) (m : String)
    (h : be.reportsFail = some m ∨
      (be.reportsFail = none ∧ (reportQueryOf b.reportFilters).wf = true ∧
        matchedReports be b.reportFilters ≠ [] ∧ be.companiesFail = some m)) :
    searchHandler be b = errorResponse m ∧
    (errorResponse m).status = 500 ∧ (errorResponse m).success = false ∧
    (errorResponse m).total = 0 ∧ (errorResponse m).companies = [] ∧
    (errorResponse m).error = some m := by
  refine ⟨?_, rfl, rfl, rfl, rfl, rfl⟩
  rcases h with h1 | ⟨h1, hwf, hne, h2⟩
  · apply searchHandler_error_eq
    unfold runReportSearch
    rw [h1]
  · have hok : runReportSearch be b.reportFilters =
        Except.ok (matchedReports be b.reportFilters) := by
      unfold runReportSearch
      rw [h1]
      simp [hwf]
    rw [searchHandler_ok_eq hok]
    have hemp : ¬ (dedupFirst
        ((matchedReports be b.reportFilters).map fun r => r.company_id)).isEmpty = true := by
      rw [dedupFirst_isEmpty]
      cases hmm : matchedReports be b.reportFilters with
      | nil => exact absurd hmm hne
      | cons x xs => simp
    apply searchStage2_err hemp
    unfold runCompanySearch
    rw [h2]

/-- C8 witness: stage-one engine failure on a concrete backend. -/
theorem C8_failure_no_partial_results_witness :
    searchHandler { reports := [], companies := [], reportsFail := some "boom" } {} =
      errorResponse "boom" :=
  (C8_failure_no_partial_results
    { reports := [], companies := [], reportsFail := some "boom" } {} "boom"
    (Or.inl rfl)).1

/-- The handler depends on the body only through the compiled clause
lists and the four paging/sorting fields. -/
theorem searchHandler_congr (be : Backend) (b1 b2 : SearchBody)
    (hr : reportMust b1.reportFilters = reportMust b2.reportFilters)
    (hc : companyMustBase b1.companyFilters = companyMustBase b2.companyFilters)
    (hp : b1.page = b2.page) (hsz : b1.size = b2.size)
    (hsf : b1.sortField = b2.sortField) (hso : b1.sortOrder = b2.sortOrder) :
    searchHandler be b1 = searchHandler be b2 := by
  unfold searchHandler searchStage2 runReportSearch matchedReports reportQueryOf
  rw [hr, hc, hp, hsz, hsf, hso]

/-- C9: inserting the sample batch twice leaves, for every id and every
starting state of either index, the same per-id document count as
inserting it once — bulk `index` ops under an explicit `_id` overwrite
rather than duplicate. -/
theorem C9_insert_sample_idempotent (j : String) (sc : Store Company) (sr : Store Report) :
    countId j (insertSampleCompanies (insertSampleCompanies sc)) =
      countId j (insertSampleCompanies sc) ∧
    countId j (insertSampleReports (insertSampleReports sr)) =
      countId j (insertSampleReports sr) := by
  unfold insertSampleCompanies insertSampleReports
  constructor
  · rw [countId_bulkIndex]
    by_cases hd : sampleCompanies.any (fun d => decide (d.id = j)) = true
    · have hk : hasKey j (bulkIndex sampleCompanies (fun c => c.id) sc) = true := by
        rw [hasKey_bulkIndex]
        simp only [hd, Bool.true_or]
      simp [hk]
    · simp [hd]
  · rw [countId_bulkIndex]
    by_cases hd : sampleReports.any (fun d => decide (d.id = j)) = true
    · have hk : hasKey j (bulkIndex sampleReports (fun r => r.id) sr) = true := by
        rw [hasKey_bulkIndex]
        simp only [hd, Bool.true_or]
      simp [hk]
    · simp [hd]

/-- C10: a filter field that is present but falsy (empty-string id,
name or status, or an empty tags array) compiles to no clause, and the
federated response is identical to the same request with that field
absent. -/
theorem C10_falsy_fields_no_clause (be : Backend) (b : SearchBody)
    (rf : ReportFilters) (cf : CompanyFilters) :
    reportMust { rf with id := some "" } = reportMust { rf with id := none } ∧
    reportMust { rf with name := some "" } = reportMust { rf with name := none } ∧
    reportMust { rf with status := some "" } = reportMust { rf with status := none } ∧
    reportMust { rf with tags := JTags.arr [] } =
      reportMust { rf with tags := JTags.absent } ∧
    companyMustBase { cf with id := some "" } = companyMustBase { cf with id := none } ∧
    companyMustBase { cf with name := some "" } =
      companyMustBase { cf with name := none } ∧
    searchHandler be { b with reportFilters := { rf with id := some "" } } =
      searchHandler be { b with reportFilters := { rf with id := none } } ∧
    searchHandler be { b with reportFilters := { rf with name := some "" } } =
      searchHandler be { b with reportFilters := { rf with name := none } } ∧
    searchHandler be { b with reportFilters := { rf with status := some "" } } =
      searchHandler be { b with reportFilters := { rf with status := none } } ∧
    searchHandler be { b with reportFilters := { rf with tags := JTags.arr [] } } =
      searchHandler be { b with reportFilters := { rf with tags := JTags.absent } } ∧
    searchHandler be { b with companyFilters := { cf with id := some "" } } =
      searchHandler be { b with companyFilters := { cf with id := none } } ∧
    searchHandler be { b with companyFilters := { cf with name := some "" } } =
      searchHandler be { b with companyFilters := { cf with name := none } } := by
  obtain ⟨rid, rname, rtags, rstatus⟩ := rf
  obtain ⟨cid, cname⟩ := cf
  refine ⟨rfl, rfl, rfl, rfl, rfl, rfl, ?_, ?_, ?_, ?_, ?_, ?_⟩ <;>
    exact searchHandler_congr be _ _ rfl rfl rfl rfl rfl rfl

end ElasticSrv
